import Mathlib

/-!
Shallow embedding of `llvm/tools/llvm-cov/CoverageExporterJson.cpp`: the JSON
code-coverage exporter.  Pure schema renderers are translated as Lean
functions; the thread-pool fan-out in `renderFiles` is modelled by making the
task-completion order an explicit parameter (the accumulated array is the
per-file renderings listed in completion order), and `std::sort` by insertion
sort — on inputs whose sort keys are pairwise distinct every comparison sort
produces the same, unique, sorted permutation, so the algorithm choice is
unobservable under the provider's filename-uniqueness guarantee.
-/

/-- JSON values as built by the exporter (llvm::json::Value, restricted to the
shapes this file constructs).  Objects are association lists with unique keys;
`num` carries the floating-point percentages computed by the external
summarizer, which the exporter passes through verbatim, so they are
represented as exact rationals. -/
inductive JValue where
  | str : String → JValue
  | int : Int → JValue
  | num : Rat → JValue
  | bool : Bool → JValue
  | arr : List JValue → JValue
  | obj : List (String × JValue) → JValue

/-- Key lookup in a JSON object (llvm json::Object keys are unique). -/
def getKey : List (String × JValue) → String → Option JValue
  | [], _ => none
  | (k, v) :: rest, key => if k == key then some v else getKey rest key

/-- `json::Object::operator[]=` : replace the key if present, else append. -/
def setKey : List (String × JValue) → String → JValue → List (String × JValue)
  | [], key, v => [(key, v)]
  | (k, w) :: rest, key, v =>
      if k == key then (key, v) :: rest else (k, w) :: setKey rest key v

/-- `json::Object::getString`: the value at the key, when it is a string. -/
def getString (o : List (String × JValue)) (key : String) : Option String :=
  match getKey o key with
  | some (JValue.str s) => some s
  | _ => none

/-- The `int64_t(·)` cast applied to an unsigned 64-bit quantity
(two's-complement reinterpretation). -/
def toInt64 (n : Nat) : Int :=
  if n % 2 ^ 64 < 2 ^ 63 then ((n % 2 ^ 64 : Nat) : Int)
  else ((n % 2 ^ 64 : Nat) : Int) - 2 ^ 64

/-- `size_t` subtraction: wraps modulo `2^64`. -/
def subUInt64 (a b : Nat) : Nat := (2 ^ 64 + a % 2 ^ 64 - b % 2 ^ 64) % 2 ^ 64

/-- `coverage::CoverageSegment`, with exactly the fields `renderSegment`
reads.  `Line`/`Col` are `unsigned`, `Count` is `uint64_t`. -/
structure CoverageSegment where
  Line : Nat
  Col : Nat
  Count : Nat
  HasCount : Bool
  IsRegionEntry : Bool
deriving DecidableEq

/-- `coverage::CountedRegion`, with exactly the fields `renderRegion` reads.
`ExecutionCount` is `uint64_t`; `Kind` is the region-kind enum tag. -/
structure CountedRegion where
  LineStart : Nat
  ColumnStart : Nat
  LineEnd : Nat
  ColumnEnd : Nat
  ExecutionCount : Nat
  FileID : Nat
  ExpandedFileID : Nat
  Kind : Nat
deriving DecidableEq

/-- `coverage::FunctionRecord`: name, execution count, counted regions and
the filenames the function spans. -/
structure FunctionRecord where
  Name : String
  ExecutionCount : Nat
  CountedRegions : List CountedRegion
  Filenames : List String
deriving DecidableEq

/-- `coverage::ExpansionRecord`: the expansion-site region paired with the
function record it expands into. -/
structure ExpansionRecord where
  Region : CountedRegion
  Function : FunctionRecord
deriving DecidableEq

/-- `coverage::CoverageData` for one file: the segment sequence, iterated in
provider order (the exporter never re-sorts it), and the expansion records. -/
structure CoverageData where
  Segments : List CoverageSegment
  Expansions : List ExpansionRecord

/-- Modelled from the spec: the mapping-provider interface the exporter
consumes (`uniqueSourceFiles()`, `coverageForFile(name)`,
`coveredFunctions()`); `coverage::CoverageMapping` itself is outside the
given source. -/
structure CoverageMapping where
  UniqueSourceFiles : List String
  CoverageForFile : String → CoverageData
  CoveredFunctions : List FunctionRecord

/-- Modelled from the spec: one metric block of a `FileCoverageSummary`
(lines / functions / instantiations / regions), each exposing a total
(`getNumLines` / `getNumFunctions` / `getNumRegions`, a `size_t`), a covered
total (`getCovered` / `getExecuted`, a `size_t`) and a precomputed percentage
(`getPercentCovered`).  The summarizer class lives outside the given
source. -/
structure CoverageInfo where
  count : Nat
  covered : Nat
  percent : Rat
deriving DecidableEq

/-- Modelled from the spec: `FileCoverageSummary` — four independent metric
blocks plus an identifying name, produced by the external summarizer. -/
structure FileCoverageSummary where
  Name : String
  LineCoverage : CoverageInfo
  FunctionCoverage : CoverageInfo
  InstantiationCoverage : CoverageInfo
  RegionCoverage : CoverageInfo
deriving DecidableEq

/-- `CoverageViewOptions`, restricted to the fields this exporter reads.
`NumThreads` is `unsigned`. -/
structure CoverageViewOptions where
  ExportSummaryOnly : Bool
  SkipExpansions : Bool
  SkipFunctions : Bool
  NumThreads : Nat
deriving DecidableEq

/-- The semantic version combined as a string. -/
def LLVM_COVERAGE_EXPORT_JSON_STR : String := "2.0.0"

/-- Unique type identifier for JSON coverage export. -/
def LLVM_COVERAGE_EXPORT_JSON_TYPE_STR : String := "llvm.coverage.json.export"

def renderSegment (Segment : CoverageSegment) : List JValue :=
  [JValue.int (Int.ofNat Segment.Line), JValue.int (Int.ofNat Segment.Col),
   JValue.int (toInt64 Segment.Count), JValue.bool Segment.HasCount,
   JValue.bool Segment.IsRegionEntry]

def renderRegion (Region : CountedRegion) : List JValue :=
  [JValue.int (Int.ofNat Region.LineStart), JValue.int (Int.ofNat Region.ColumnStart),
   JValue.int (Int.ofNat Region.LineEnd), JValue.int (Int.ofNat Region.ColumnEnd),
   JValue.int (toInt64 Region.ExecutionCount), JValue.int (Int.ofNat Region.FileID),
   JValue.int (Int.ofNat Region.ExpandedFileID), JValue.int (toInt64 Region.Kind)]

def renderRegions (Regions : List CountedRegion) : List JValue :=
  Regions.map (fun Region => JValue.arr (renderRegion Region))

def renderExpansion (Expansion : ExpansionRecord) : List (String × JValue) :=
  [("filenames", JValue.arr (Expansion.Function.Filenames.map JValue.str)),
   ("source_region", JValue.arr (renderRegion Expansion.Region)),
   ("target_regions", JValue.arr (renderRegions Expansion.Function.CountedRegions))]

def renderSummary (Summary : FileCoverageSummary) : List (String × JValue) :=
  [("lines", JValue.obj
      [("count", JValue.int (toInt64 Summary.LineCoverage.count)),
       ("covered", JValue.int (toInt64 Summary.LineCoverage.covered)),
       ("percent", JValue.num Summary.LineCoverage.percent)]),
   ("functions", JValue.obj
      [("count", JValue.int (toInt64 Summary.FunctionCoverage.count)),
       ("covered", JValue.int (toInt64 Summary.FunctionCoverage.covered)),
       ("percent", JValue.num Summary.FunctionCoverage.percent)]),
   ("instantiations", JValue.obj
      [("count", JValue.int (toInt64 Summary.InstantiationCoverage.count)),
       ("covered", JValue.int (toInt64 Summary.InstantiationCoverage.covered)),
       ("percent", JValue.num Summary.InstantiationCoverage.percent)]),
   ("regions", JValue.obj
      [("count", JValue.int (toInt64 Summary.RegionCoverage.count)),
       ("covered", JValue.int (toInt64 Summary.RegionCoverage.covered)),
       ("notcovered", JValue.int (toInt64
          (subUInt64 Summary.RegionCoverage.count Summary.RegionCoverage.covered))),
       ("percent", JValue.num Summary.RegionCoverage.percent)])]

def renderFileExpansions (FileCoverage : CoverageData)
    (FileReport : FileCoverageSummary) : List JValue :=
  FileCoverage.Expansions.map (fun Expansion => JValue.obj (renderExpansion Expansion))

def renderFileSegments (FileCoverage : CoverageData)
    (FileReport : FileCoverageSummary) : List JValue :=
  FileCoverage.Segments.map (fun Segment => JValue.arr (renderSegment Segment))

def renderFile (Coverage : CoverageMapping) (Filename : String)
    (FileReport : FileCoverageSummary) (Options : CoverageViewOptions) :
    List (String × JValue) :=
  let File := [("filename", JValue.str Filename)]
  let File :=
    if !Options.ExportSummaryOnly then
      -- Calculate and render detailed coverage information for given file.
      let FileCoverage := Coverage.CoverageForFile Filename
      let File := setKey File "segments"
        (JValue.arr (renderFileSegments FileCoverage FileReport))
      if !Options.SkipExpansions then
        setKey File "expansions"
          (JValue.arr (renderFileExpansions FileCoverage FileReport))
      else File
    else File
  setKey File "summary" (JValue.obj (renderSummary FileReport))

/-- The worker count `renderFiles` constructs its `ThreadPool` with:
`Options.NumThreads`, or, when that is zero,
`max(1U, min(heavyweight_hardware_concurrency(), SourceFiles.size()))`.
`heavyweight_hardware_concurrency` is external, so it is a parameter. -/
def renderFilesNumThreads (Options : CoverageViewOptions)
    (hardwareConcurrency : Nat) (numFiles : Nat) : Nat :=
  if Options.NumThreads == 0 then max 1 (min hardwareConcurrency numFiles)
  else Options.NumThreads

/-- The per-file render tasks of `renderFiles`, in submission order: task `I`
renders `SourceFiles[I]` with `FileReports[I]`. -/
def renderFilesSeq (Coverage : CoverageMapping) (SourceFiles : List String)
    (FileReports : List FileCoverageSummary) (Options : CoverageViewOptions) :
    List JValue :=
  (SourceFiles.zip FileReports).map
    (fun p => JValue.obj (renderFile Coverage p.1 p.2 Options))

/-- The `FileArray` accumulated by `renderFiles` when the pool completes the
tasks in the order given by `order` (a permutation of the task indices):
each task appends its one rendered object under the mutex, and `Pool.wait()`
ensures all of them have run before the array is returned. -/
def renderFilesWithOrder (Coverage : CoverageMapping) (SourceFiles : List String)
    (FileReports : List FileCoverageSummary) (Options : CoverageViewOptions)
    (order : List Nat) : List JValue :=
  order.filterMap (fun i => ((SourceFiles.zip FileReports)[i]?).map
    (fun p => JValue.obj (renderFile Coverage p.1 p.2 Options)))

def renderFunctions (Functions : List FunctionRecord) : List JValue :=
  Functions.map (fun F => JValue.obj
    [("name", JValue.str F.Name),
     ("count", JValue.int (toInt64 F.ExecutionCount)),
     ("regions", JValue.arr (renderRegions F.CountedRegions)),
     ("filenames", JValue.arr (F.Filenames.map JValue.str))])

/-- The key the sort comparator extracts from an element:
`getAsObject()` then `getString("filename")`.  `none` corresponds to the
assertion-failure branches, which C9 shows are unreachable. -/
def fileSortKey (v : JValue) : Option String :=
  match v with
  | JValue.obj o => getString o "filename"
  | _ => none

/-- The comparator key, with a default that is never consulted on reachable
inputs (C9 shows every sorted element has a string `filename`). -/
def fileKeyD (v : JValue) : String := (fileSortKey v).getD ""

/-- `StringRef::compare(A, B) < 0` as a Boolean: lexicographic comparison.
`StringRef::compare` is byte-wise over the UTF-8 bytes; byte-wise order of
UTF-8 encodings coincides with code-point lexicographic order, so it is
computed here on the code-point sequences. -/
def charsLtB : List Char → List Char → Bool
  | _, [] => false
  | [], _ :: _ => true
  | a :: as, b :: bs =>
      if a < b then true else if b < a then false else charsLtB as bs

/-- `A.compare(B) < 0` on strings. -/
def strLt (a b : String) : Prop := charsLtB a.data b.data = true

/-- `¬(B.compare(A) < 0)`: the non-strict order induced by the comparator. -/
def strLe (a b : String) : Prop := charsLtB b.data a.data = false

/-- The sort comparator of `renderRoot`, non-strict form. -/
def fileLe (a b : JValue) : Prop := strLe (fileKeyD a) (fileKeyD b)

/-- The sort comparator of `renderRoot`, strict form as written in the
source. -/
def fileLt (a b : JValue) : Prop := strLt (fileKeyD a) (fileKeyD b)

instance : DecidableRel fileLe := fun a b =>
  inferInstanceAs (Decidable (charsLtB (fileKeyD b).data (fileKeyD a).data = false))

instance : DecidableRel fileLt := fun a b =>
  inferInstanceAs (Decidable (charsLtB (fileKeyD a).data (fileKeyD b).data = true))

/-- `std::sort(Files.begin(), Files.end(), comparator)`, modelled by
insertion sort over the comparator's order (see the file comment: unique
keys make the sorted permutation unique). -/
def sortFiles (Files : List JValue) : List JValue :=
  List.insertionSort fileLe Files

/-- The export object assembled by `renderRoot`: `{files, totals}`, to which
`functions` is added unless `ExportSummaryOnly` or `SkipFunctions` is set
(`// Skip functions-level information if necessary.`). -/
def exportObj (Coverage : CoverageMapping) (Totals : FileCoverageSummary)
    (Files : List JValue) (Options : CoverageViewOptions) :
    List (String × JValue) :=
  let Export := [("files", JValue.arr Files),
                 ("totals", JValue.obj (renderSummary Totals))]
  if !Options.ExportSummaryOnly && !Options.SkipFunctions then
    setKey Export "functions" (JValue.arr (renderFunctions Coverage.CoveredFunctions))
  else Export

/-- `CoverageExporterJson::renderRoot(ArrayRef<std::string>)`.  The external
summarizer `CoverageReport::prepareFileReports` is a parameter returning the
per-file summaries together with the `Totals` aggregate it fills in; `order`
is the task-completion order of the thread pool. -/
def renderRoot (Coverage : CoverageMapping)
    (prepareFileReports : List String → List FileCoverageSummary × FileCoverageSummary)
    (SourceFiles : List String) (Options : CoverageViewOptions)
    (order : List Nat) : JValue :=
  let FileReports := (prepareFileReports SourceFiles).1
  let Totals := (prepareFileReports SourceFiles).2
  -- Sort files in order of their names.
  let Files := sortFiles (renderFilesWithOrder Coverage SourceFiles FileReports Options order)
  JValue.obj
    [("version", JValue.str LLVM_COVERAGE_EXPORT_JSON_STR),
     ("type", JValue.str LLVM_COVERAGE_EXPORT_JSON_TYPE_STR),
     ("data", JValue.arr [JValue.obj (exportObj Coverage Totals Files Options)])]

/-- Extracts the `files` array of an emitted document, following the envelope
shape: top-level `data` is a one-element array holding the export object. -/
def filesOf (doc : JValue) : Option (List JValue) :=
  match doc with
  | JValue.obj top =>
      match getKey top "data" with
      | some (JValue.arr [JValue.obj Export]) =>
          match getKey Export "files" with
          | some (JValue.arr Files) => some Files
          | _ => none
      | _ => none
  | _ => none

/-- Reads one integer field of one metric block of a rendered summary
object. -/
def summaryInt (S : List (String × JValue)) (block key : String) : Option Int :=
  match getKey S block with
  | some (JValue.obj b) =>
      match getKey b key with
      | some (JValue.int n) => some n
      | _ => none
  | _ => none

/-- Fixture: a mapping provider with no coverage data. -/
def emptyMapping : CoverageMapping :=
  { UniqueSourceFiles := []
    CoverageForFile := fun _ => { Segments := [], Expansions := [] }
    CoveredFunctions := [] }

/-- Fixture: an all-zero metric block. -/
def zeroInfo : CoverageInfo := { count := 0, covered := 0, percent := 0 }

/-- Fixture: a zero-coverage summary. -/
def zeroSummary (name : String) : FileCoverageSummary :=
  { Name := name, LineCoverage := zeroInfo, FunctionCoverage := zeroInfo,
    InstantiationCoverage := zeroInfo, RegionCoverage := zeroInfo }

/-- Fixture: a summarizer producing zero-coverage reports, one per file, and a
zero aggregate. -/
def prepareZero (files : List String) :
    List FileCoverageSummary × FileCoverageSummary :=
  (files.map zeroSummary, zeroSummary "Totals")

/-- Fixture: default options with one worker thread. -/
def optsOneThread : CoverageViewOptions :=
  { ExportSummaryOnly := false, SkipExpansions := false, SkipFunctions := false,
    NumThreads := 1 }

/-- Fixture: a provider presenting one segment `[10, 1, 5, true, true]` for
every file. -/
def oneSegMapping : CoverageMapping :=
  { UniqueSourceFiles := ["a.c"]
    CoverageForFile := fun _ =>
      { Segments := [{ Line := 10, Col := 1, Count := 5,
                       HasCount := true, IsRegionEntry := true }]
        Expansions := [] }
    CoveredFunctions := [] }

/-- Fixture: a small summary with nonzero metrics. -/
def sampleSummary : FileCoverageSummary :=
  { Name := "f.c"
    LineCoverage := { count := 4, covered := 3, percent := 75 }
    FunctionCoverage := { count := 2, covered := 2, percent := 100 }
    InstantiationCoverage := { count := 2, covered := 1, percent := 50 }
    RegionCoverage := { count := 5, covered := 2, percent := 40 } }

theorem getKey_setKey_self (o : List (String × JValue)) (k : String) (v : JValue) :
    getKey (setKey o k v) k = some v := by
  induction o with
  | nil => simp [setKey, getKey]
  | cons p rest ih =>
      obtain ⟨k2, w⟩ := p
      by_cases h : k2 = k
      · subst h; simp [setKey, getKey]
      · simp [setKey, getKey, h, ih]

theorem getKey_setKey_of_ne (o : List (String × JValue)) (k k2 : String)
    (v : JValue) (h : k ≠ k2) : getKey (setKey o k v) k2 = getKey o k2 := by
  induction o with
  | nil => simp [setKey, getKey, h]
  | cons p rest ih =>
      obtain ⟨k3, w⟩ := p
      by_cases h3 : k3 = k
      · subst h3; simp [setKey, getKey, h]
      · simp [setKey, getKey, h3, ih]

theorem getKey_renderFile_filename (C : CoverageMapping) (f : String)
    (r : FileCoverageSummary) (o : CoverageViewOptions) :
    getKey (renderFile C f r o) "filename" = some (JValue.str f) := by
  unfold renderFile
  cases hE : o.ExportSummaryOnly <;> cases hS : o.SkipExpansions <;>
    simp [hE, hS, setKey, getKey]

theorem renderFile_summaryOnly (C : CoverageMapping) (f : String)
    (r : FileCoverageSummary) (o : CoverageViewOptions)
    (h : o.ExportSummaryOnly = true) :
    renderFile C f r o =
      [("filename", JValue.str f), ("summary", JValue.obj (renderSummary r))] := by
  simp [renderFile, h, setKey]

theorem renderFile_skipExpansions (C : CoverageMapping) (f : String)
    (r : FileCoverageSummary) (o : CoverageViewOptions)
    (hE : o.ExportSummaryOnly = false) (hS : o.SkipExpansions = true) :
    renderFile C f r o =
      [("filename", JValue.str f),
       ("segments", JValue.arr (renderFileSegments (C.CoverageForFile f) r)),
       ("summary", JValue.obj (renderSummary r))] := by
  simp [renderFile, hE, hS, setKey]

theorem renderFile_full (C : CoverageMapping) (f : String)
    (r : FileCoverageSummary) (o : CoverageViewOptions)
    (hE : o.ExportSummaryOnly = false) (hS : o.SkipExpansions = false) :
    renderFile C f r o =
      [("filename", JValue.str f),
       ("segments", JValue.arr (renderFileSegments (C.CoverageForFile f) r)),
       ("expansions", JValue.arr (renderFileExpansions (C.CoverageForFile f) r)),
       ("summary", JValue.obj (renderSummary r))] := by
  simp [renderFile, hE, hS, setKey]

theorem charsLtB_asymm {a b : List Char} (h : charsLtB a b = true) :
    charsLtB b a = false := by
  induction a generalizing b with
  | nil =>
      cases b with
      | nil => simp [charsLtB] at h
      | cons y ys => rfl
  | cons x xs ih =>
      cases b with
      | nil => simp [charsLtB] at h
      | cons y ys =>
          by_cases hxy : x < y
          · have hyx : ¬ y < x := lt_asymm hxy
            simp [charsLtB, hxy, hyx]
          · by_cases hyx : y < x
            · simp [charsLtB, hxy, hyx] at h
            · simp only [charsLtB, if_neg hxy, if_neg hyx] at h
              simp only [charsLtB, if_neg hyx, if_neg hxy]
              exact ih h

theorem charsLtB_trans {a b c : List Char} (h1 : charsLtB a b = true)
    (h2 : charsLtB b c = true) : charsLtB a c = true := by
  induction a generalizing b c with
  | nil =>
      cases c with
      | nil =>
          cases b with
          | nil => simp [charsLtB] at h1
          | cons y ys => simp [charsLtB] at h2
      | cons z zs => rfl
  | cons x xs ih =>
      cases b with
      | nil => simp [charsLtB] at h1
      | cons y ys =>
          cases c with
          | nil => simp [charsLtB] at h2
          | cons z zs =>
              by_cases hxy : x < y
              · by_cases hyz : y < z
                · simp [charsLtB, lt_trans hxy hyz]
                · by_cases hzy : z < y
                  · simp [charsLtB, hyz, hzy] at h2
                  · have e : y = z := le_antisymm (le_of_not_lt hzy) (le_of_not_lt hyz)
                    subst e
                    simp [charsLtB, hxy]
              · by_cases hyx : y < x
                · simp [charsLtB, hxy, hyx] at h1
                · have e : x = y := le_antisymm (le_of_not_lt hyx) (le_of_not_lt hxy)
                  subst e
                  simp only [charsLtB, if_neg hxy, if_neg hyx] at h1
                  by_cases hxz : x < z
                  · simp [charsLtB, hxz]
                  · by_cases hzx : z < x
                    · simp [charsLtB, hxz, hzx] at h2
                    · have e2 : x = z := le_antisymm (le_of_not_lt hzx) (le_of_not_lt hxz)
                      subst e2
                      simp only [charsLtB, if_neg hxz, if_neg hzx] at h2 ⊢
                      exact ih h1 h2

theorem charsLtB_trichotomy (a b : List Char) :
    charsLtB a b = true ∨ a = b ∨ charsLtB b a = true := by
  induction a generalizing b with
  | nil =>
      cases b with
      | nil => exact Or.inr (Or.inl rfl)
      | cons y ys => exact Or.inl rfl
  | cons x xs ih =>
      cases b with
      | nil => exact Or.inr (Or.inr rfl)
      | cons y ys =>
          rcases lt_trichotomy x y with hxy | hxy | hxy
          · exact Or.inl (by simp [charsLtB, hxy])
          · subst hxy
            rcases ih ys with h | h | h
            · exact Or.inl (by simp [charsLtB, h])
            · exact Or.inr (Or.inl (by rw [h]))
            · exact Or.inr (Or.inr (by simp [charsLtB, h]))
          · exact Or.inr (Or.inr (by simp [charsLtB, hxy]))

instance : IsTotal JValue fileLe :=
  ⟨fun a b => by
    cases h : charsLtB (fileKeyD b).data (fileKeyD a).data
    · exact Or.inl h
    · exact Or.inr (charsLtB_asymm h)⟩

instance : IsTrans JValue fileLe :=
  ⟨fun a b c h1 h2 => by
    show charsLtB (fileKeyD c).data (fileKeyD a).data = false
    cases h : charsLtB (fileKeyD c).data (fileKeyD a).data
    · rfl
    · exfalso
      rcases charsLtB_trichotomy (fileKeyD a).data (fileKeyD b).data with hab | hab | hab
      · exact absurd (charsLtB_trans h hab) (by rw [h2] ; simp)
      · rw [hab] at h
        exact absurd h (by rw [h2] ; simp)
      · exact absurd hab (by rw [h1] ; simp)⟩

instance : IsTrans JValue fileLt :=
  ⟨fun _ _ _ h1 h2 => charsLtB_trans h1 h2⟩

instance : IsAntisymm JValue fileLt :=
  ⟨fun _ _ h h' => by
    have hf := charsLtB_asymm h
    exact absurd h' (by simp [fileLt, strLt, hf])⟩

theorem strLt_of_strLe_of_ne {a b : String} (hle : strLe a b) (hne : a ≠ b) :
    strLt a b := by
  have hle' : charsLtB b.data a.data = false := hle
  rcases charsLtB_trichotomy a.data b.data with hlt | heq | hgt
  · exact hlt
  · refine absurd ?_ hne
    cases a ; cases b
    exact congrArg String.mk (by simpa using heq)
  · rw [hle'] at hgt ; exact Bool.noConfusion hgt

theorem sortFiles_perm (l : List JValue) : List.Perm (sortFiles l) l :=
  List.perm_insertionSort fileLe l

theorem sortFiles_sorted (l : List JValue) : List.Sorted fileLe (sortFiles l) :=
  List.sorted_insertionSort fileLe l

theorem pairwise_fileLt_of_sorted_nodup (l : List JValue)
    (hs : List.Sorted fileLe l) (hnd : (l.map fileKeyD).Nodup) :
    List.Pairwise fileLt l := by
  have hne : l.Pairwise (fun a b => fileKeyD a ≠ fileKeyD b) :=
    List.pairwise_map.mp hnd
  exact (hs.and hne).imp (fun h => strLt_of_strLe_of_ne h.1 h.2)

theorem sortFiles_eq_of_perm (l₁ l₂ : List JValue) (h : List.Perm l₁ l₂)
    (hnd : (l₁.map fileKeyD).Nodup) : sortFiles l₁ = sortFiles l₂ := by
  have p1 := sortFiles_perm l₁
  have p2 := sortFiles_perm l₂
  have hnd1 : ((sortFiles l₁).map fileKeyD).Nodup :=
    ((p1.map fileKeyD).nodup_iff).mpr hnd
  have hnd2 : ((sortFiles l₂).map fileKeyD).Nodup :=
    ((p2.map fileKeyD).nodup_iff).mpr (((h.map fileKeyD).nodup_iff).mp hnd)
  exact List.eq_of_perm_of_sorted (p1.trans (h.trans p2.symm))
    (pairwise_fileLt_of_sorted_nodup _ (sortFiles_sorted l₁) hnd1)
    (pairwise_fileLt_of_sorted_nodup _ (sortFiles_sorted l₂) hnd2)

theorem filterMap_getElem_range {α β : Type} (l : List α) (h : α → β) :
    (List.range l.length).filterMap (fun i => (l[i]?).map h) = l.map h := by
  induction l with
  | nil => simp
  | cons a t ih =>
      rw [List.length_cons, List.range_succ_eq_map, List.filterMap_cons,
          List.filterMap_map]
      simp only [List.getElem?_cons_zero, Option.map_some']
      have : ((fun i => ((a :: t)[i]?).map h) ∘ Nat.succ)
           = fun i => ((t[i]?).map h) := by
        funext i
        simp
      rw [this, ih]
      simp [List.map_cons]

theorem renderFilesWithOrder_perm (C : CoverageMapping) (SF : List String)
    (FR : List FileCoverageSummary) (o : CoverageViewOptions) (order : List Nat)
    (hlen : FR.length = SF.length) (horder : List.Perm order (List.range SF.length)) :
    List.Perm (renderFilesWithOrder C SF FR o order) (renderFilesSeq C SF FR o) := by
  have hz : (SF.zip FR).length = SF.length := by
    rw [List.length_zip, hlen, min_self]
  have base : renderFilesWithOrder C SF FR o (List.range SF.length)
      = renderFilesSeq C SF FR o := by
    rw [← hz]
    unfold renderFilesWithOrder renderFilesSeq
    exact filterMap_getElem_range _ _
  exact (horder.filterMap _).trans (base ▸ List.Perm.refl _)

theorem map_fileKeyD_renderFilesSeq (C : CoverageMapping) (SF : List String)
    (FR : List FileCoverageSummary) (o : CoverageViewOptions)
    (hlen : FR.length = SF.length) :
    (renderFilesSeq C SF FR o).map fileKeyD = SF := by
  unfold renderFilesSeq
  rw [List.map_map]
  have hcomp : (fileKeyD ∘ fun p : String × FileCoverageSummary =>
      JValue.obj (renderFile C p.1 p.2 o)) = Prod.fst := by
    funext p
    show fileKeyD (JValue.obj (renderFile C p.1 p.2 o)) = p.1
    simp [fileKeyD, fileSortKey, getString, getKey_renderFile_filename]
  rw [hcomp]
  exact List.map_fst_zip SF FR (le_of_eq hlen.symm)

theorem getKey_exportObj_files (C : CoverageMapping) (T : FileCoverageSummary)
    (Files : List JValue) (o : CoverageViewOptions) :
    getKey (exportObj C T Files o) "files" = some (JValue.arr Files) := by
  unfold exportObj
  cases hE : o.ExportSummaryOnly <;> cases hS : o.SkipFunctions <;>
    simp [hE, hS, setKey, getKey]

theorem getKey_exportObj_totals (C : CoverageMapping) (T : FileCoverageSummary)
    (Files : List JValue) (o : CoverageViewOptions) :
    getKey (exportObj C T Files o) "totals" = some (JValue.obj (renderSummary T)) := by
  unfold exportObj
  cases hE : o.ExportSummaryOnly <;> cases hS : o.SkipFunctions <;>
    simp [hE, hS, setKey, getKey]

theorem filesOf_renderRoot (C : CoverageMapping)
    (prepare : List String → List FileCoverageSummary × FileCoverageSummary)
    (SF : List String) (o : CoverageViewOptions) (order : List Nat) :
    filesOf (renderRoot C prepare SF o order) =
      some (sortFiles (renderFilesWithOrder C SF (prepare SF).1 o order)) := by
  unfold filesOf renderRoot
  simp [getKey, getKey_exportObj_files]

/-- C4: in every rendered file object, `summary` is always present and holds
the caller-supplied precomputed summary rendered verbatim; `segments` is
present iff `exportSummaryOnly` is false; `expansions` is present iff
`exportSummaryOnly` is false and `skipExpansions` is false. -/
theorem C4_file_key_presence (C : CoverageMapping) (f : String)
    (r : FileCoverageSummary) (o : CoverageViewOptions) :
    getKey (renderFile C f r o) "summary" = some (JValue.obj (renderSummary r)) ∧
    ((getKey (renderFile C f r o) "segments").isSome ↔
      o.ExportSummaryOnly = false) ∧
    ((getKey (renderFile C f r o) "expansions").isSome ↔
      (o.ExportSummaryOnly = false ∧ o.SkipExpansions = false)) := by
  cases hE : o.ExportSummaryOnly <;> cases hS : o.SkipExpansions
  · rw [renderFile_full C f r o hE hS] ; simp [getKey]
  · rw [renderFile_skipExpansions C f r o hE hS] ; simp [getKey]
  · rw [renderFile_summaryOnly C f r o hE] ; simp [getKey, hE]
  · rw [renderFile_summaryOnly C f r o hE] ; simp [getKey, hE]

/-- C5: the export object carries a top-level `functions` key iff both
`exportSummaryOnly` and `skipFunctions` are false; each of the two flags
alone suppresses it. -/
theorem C5_functions_key (C : CoverageMapping)
    (prepare : List String → List FileCoverageSummary × FileCoverageSummary)
    (SF : List String) (o : CoverageViewOptions) (order : List Nat) :
    ∃ Export : List (String × JValue),
      renderRoot C prepare SF o order =
        JValue.obj
          [("version", JValue.str LLVM_COVERAGE_EXPORT_JSON_STR),
           ("type", JValue.str LLVM_COVERAGE_EXPORT_JSON_TYPE_STR),
           ("data", JValue.arr [JValue.obj Export])] ∧
      ((getKey Export "functions").isSome ↔
        (o.ExportSummaryOnly = false ∧ o.SkipFunctions = false)) := by
  refine ⟨exportObj C (prepare SF).2
    (sortFiles (renderFilesWithOrder C SF (prepare SF).1 o order)) o, rfl, ?_⟩
  unfold exportObj
  cases hE : o.ExportSummaryOnly <;> cases hS : o.SkipFunctions <;>
    simp [hE, hS, setKey, getKey, getKey_setKey_self]

/-- C6: with `exportSummaryOnly` false, the rendered `segments` array is
exactly the provider's segment sequence for the file mapped element-wise
through `renderSegment`, with the same count and relative order, each segment
a 5-element fixed-order array `[line, column, count, hasCount,
isRegionEntry]`. -/
theorem C6_segments_verbatim (C : CoverageMapping) (f : String)
    (r : FileCoverageSummary) (o : CoverageViewOptions)
    (hE : o.ExportSummaryOnly = false) :
    getKey (renderFile C f r o) "segments" =
      some (JValue.arr ((C.CoverageForFile f).Segments.map
        (fun s => JValue.arr (renderSegment s)))) ∧
    ((C.CoverageForFile f).Segments.map
      (fun s => JValue.arr (renderSegment s))).length
        = (C.CoverageForFile f).Segments.length ∧
    ∀ s : CoverageSegment,
      renderSegment s =
        [JValue.int (Int.ofNat s.Line), JValue.int (Int.ofNat s.Col),
         JValue.int (toInt64 s.Count), JValue.bool s.HasCount,
         JValue.bool s.IsRegionEntry] ∧
      (renderSegment s).length = 5 := by
  refine ⟨?_, List.length_map _ _, fun s => ⟨rfl, rfl⟩⟩
  cases hS : o.SkipExpansions
  · rw [renderFile_full C f r o hE hS] ; simp [getKey, renderFileSegments]
  · rw [renderFile_skipExpansions C f r o hE hS] ; simp [getKey, renderFileSegments]

/-- C8: the thread-pool worker count is `Options.NumThreads` verbatim when
nonzero (whatever the file count or hardware concurrency), and
`max(1, min(hardwareConcurrency, numberOfFiles))` when it is zero. -/
theorem C8_worker_count (o : CoverageViewOptions) (hc nf : Nat) :
    (o.NumThreads ≠ 0 → renderFilesNumThreads o hc nf = o.NumThreads) ∧
    (o.NumThreads = 0 → renderFilesNumThreads o hc nf = max 1 (min hc nf)) := by
  constructor <;> intro h <;> simp [renderFilesNumThreads, h]

/-- C1: for every input file set (unique filenames, as the provider
guarantees) and every completion order of the per-file tasks — hence for
every value of `numThreads` — the `files` array of the emitted document is
strictly sorted ascending by the `filename` field under byte-wise string
comparison. -/
theorem C1_files_strictly_sorted (C : CoverageMapping)
    (prepare : List String → List FileCoverageSummary × FileCoverageSummary)
    (SF : List String) (o : CoverageViewOptions) (order : List Nat)
    (hnd : SF.Nodup)
    (hlen : (prepare SF).1.length = SF.length)
    (horder : List.Perm order (List.range SF.length)) :
    ∃ Files : List JValue,
      filesOf (renderRoot C prepare SF o order) = some Files ∧
      List.Pairwise fileLt Files := by
  refine ⟨_, filesOf_renderRoot C prepare SF o order, ?_⟩
  have hperm := renderFilesWithOrder_perm C SF (prepare SF).1 o order hlen horder
  have hkeys :
      ((sortFiles (renderFilesWithOrder C SF (prepare SF).1 o order)).map
        fileKeyD).Nodup := by
    have h1 := (sortFiles_perm (renderFilesWithOrder C SF (prepare SF).1 o order)).map fileKeyD
    have h2 := hperm.map fileKeyD
    rw [map_fileKeyD_renderFilesSeq C SF (prepare SF).1 o hlen] at h2
    exact ((h1.trans h2).nodup_iff).mpr hnd
  exact pairwise_fileLt_of_sorted_nodup _ (sortFiles_sorted _) hkeys

/-- C2: the parallel renderer produces exactly one entry per input file (no
partial results), its unsorted result is a permutation of the sequential
per-file renderings, and after the deterministic sort the outcome is equal
to the sorted sequential rendering — independent of the task-completion
order, hence of the worker-count choice. -/
theorem C2_completion_order_irrelevant (C : CoverageMapping) (SF : List String)
    (FR : List FileCoverageSummary) (o : CoverageViewOptions) (order : List Nat)
    (hlen : FR.length = SF.length)
    (horder : List.Perm order (List.range SF.length))
    (hnd : SF.Nodup) :
    (renderFilesWithOrder C SF FR o order).length = SF.length ∧
    List.Perm (renderFilesWithOrder C SF FR o order) (renderFilesSeq C SF FR o) ∧
    sortFiles (renderFilesWithOrder C SF FR o order)
      = sortFiles (renderFilesSeq C SF FR o) := by
  have hperm := renderFilesWithOrder_perm C SF FR o order hlen horder
  have hseqlen : (renderFilesSeq C SF FR o).length = SF.length := by
    unfold renderFilesSeq
    rw [List.length_map, List.length_zip, hlen, min_self]
  have hkeys : ((renderFilesWithOrder C SF FR o order).map fileKeyD).Nodup := by
    have h2 := hperm.map fileKeyD
    rw [map_fileKeyD_renderFilesSeq C SF FR o hlen] at h2
    exact (h2.nodup_iff).mpr hnd
  exact ⟨hperm.length_eq.trans hseqlen, hperm,
    sortFiles_eq_of_perm _ _ hperm hkeys⟩

/-- C9: every element handed to the final sort is a JSON object with a
string-valued `filename` key, so the comparator's object casts and filename
lookups always succeed and its failure branches are unreachable. -/
theorem C9_sort_inputs_safe (C : CoverageMapping) (SF : List String)
    (FR : List FileCoverageSummary) (o : CoverageViewOptions) (order : List Nat) :
    ∀ v ∈ renderFilesWithOrder C SF FR o order,
      ∃ (ob : List (String × JValue)) (fn : String),
        v = JValue.obj ob ∧ getString ob "filename" = some fn := by
  intro v hv
  unfold renderFilesWithOrder at hv
  rw [List.mem_filterMap] at hv
  obtain ⟨i, _, hmap⟩ := hv
  cases hz : (SF.zip FR)[i]? with
  | none => rw [hz] at hmap ; simp at hmap
  | some p =>
      rw [hz] at hmap
      simp only [Option.map_some', Option.some.injEq] at hmap
      refine ⟨renderFile C p.1 p.2 o, p.1, hmap.symm, ?_⟩
      simp [getString, getKey_renderFile_filename]

/-- C10: on an empty source-file list the export is total and well-formed:
with `numThreads` zero the derived worker count is 1 (not 0), no tasks are
submitted, and the emitted document still has the envelope with an empty
`files` array and the usual `totals`. -/
theorem C10_empty_file_list (C : CoverageMapping)
    (prepare : List String → List FileCoverageSummary × FileCoverageSummary)
    (o : CoverageViewOptions) (order : List Nat) (hc : Nat)
    (h0 : o.NumThreads = 0) :
    renderFilesNumThreads o hc 0 = 1 ∧
    renderFilesSeq C [] (prepare []).1 o = [] ∧
    renderFilesWithOrder C [] (prepare []).1 o order = [] ∧
    filesOf (renderRoot C prepare [] o order) = some [] ∧
    ∃ Export : List (String × JValue),
      renderRoot C prepare [] o order =
        JValue.obj
          [("version", JValue.str LLVM_COVERAGE_EXPORT_JSON_STR),
           ("type", JValue.str LLVM_COVERAGE_EXPORT_JSON_TYPE_STR),
           ("data", JValue.arr [JValue.obj Export])] ∧
      getKey Export "totals" = some (JValue.obj (renderSummary (prepare []).2)) := by
  have hw : renderFilesWithOrder C [] (prepare []).1 o order = [] := by
    simp [renderFilesWithOrder]
  refine ⟨?_, ?_, hw, ?_, ?_⟩
  · simp [renderFilesNumThreads, h0]
  · simp [renderFilesSeq]
  · rw [filesOf_renderRoot, hw] ; rfl
  · exact ⟨exportObj C (prepare []).2
      (sortFiles (renderFilesWithOrder C [] (prepare []).1 o order)) o, rfl,
      getKey_exportObj_totals _ _ _ _⟩

/-- C3: every emitted document is exactly the envelope
`{version: "2.0.0", type: "llvm.coverage.json.export", data: [export]}` whose
`data` field is a one-element array holding the single export object; and on
input files `["b.c", "a.c"]` with zero-coverage summaries — under either
completion order of the two tasks — the `files` array lists `"a.c"` first and
`"b.c"` second. -/
theorem C3_envelope_and_scenario :
    (∀ (C : CoverageMapping)
       (prepare : List String → List FileCoverageSummary × FileCoverageSummary)
       (SF : List String) (o : CoverageViewOptions) (order : List Nat),
       renderRoot C prepare SF o order =
         JValue.obj
           [("version", JValue.str "2.0.0"),
            ("type", JValue.str "llvm.coverage.json.export"),
            ("data", JValue.arr [JValue.obj
              (exportObj C (prepare SF).2
                (sortFiles (renderFilesWithOrder C SF (prepare SF).1 o order))
                o)])]) ∧
    (filesOf (renderRoot emptyMapping prepareZero ["b.c", "a.c"]
        optsOneThread [0, 1])).map (fun l => l.map fileSortKey)
      = some [some "a.c", some "b.c"] ∧
    (filesOf (renderRoot emptyMapping prepareZero ["b.c", "a.c"]
        optsOneThread [1, 0])).map (fun l => l.map fileSortKey)
      = some [some "a.c", some "b.c"] :=
  ⟨fun _ _ _ _ _ => rfl, rfl, rfl⟩

theorem toInt64_eq_of_lt {n : Nat} (h : n < 2 ^ 63) : toInt64 n = (n : Int) := by
  unfold toInt64
  have h64 : n % 2 ^ 64 = n := Nat.mod_eq_of_lt (by omega)
  rw [h64, if_pos h]

theorem subUInt64_eq_of_le {a b : Nat} (hle : b ≤ a) (ha : a < 2 ^ 64) :
    subUInt64 a b = a - b := by
  unfold subUInt64
  omega

/-- C7: in every summary object emitted by `renderSummary` (file summaries
and totals alike), `covered ≤ count` holds for the lines, functions and
instantiations blocks, and the regions block satisfies
`notcovered = count - covered` exactly, provided the summarizer-supplied
summary satisfies its `covered ≤ count` invariant and the counts fit in
`int64_t`. -/
theorem C7_summary_invariants (S : FileCoverageSummary)
    (hl : S.LineCoverage.covered ≤ S.LineCoverage.count)
    (hf : S.FunctionCoverage.covered ≤ S.FunctionCoverage.count)
    (hi : S.InstantiationCoverage.covered ≤ S.InstantiationCoverage.count)
    (hr : S.RegionCoverage.covered ≤ S.RegionCoverage.count)
    (hlb : S.LineCoverage.count < 2 ^ 63)
    (hfb : S.FunctionCoverage.count < 2 ^ 63)
    (hib : S.InstantiationCoverage.count < 2 ^ 63)
    (hrb : S.RegionCoverage.count < 2 ^ 63) :
    (∀ block ∈ (["lines", "functions", "instantiations"] : List String),
      ∃ cnt cov : Int,
        summaryInt (renderSummary S) block "count" = some cnt ∧
        summaryInt (renderSummary S) block "covered" = some cov ∧
        cov ≤ cnt) ∧
    (∃ rcnt rcov rnot : Int,
      summaryInt (renderSummary S) "regions" "count" = some rcnt ∧
      summaryInt (renderSummary S) "regions" "covered" = some rcov ∧
      summaryInt (renderSummary S) "regions" "notcovered" = some rnot ∧
      rcov ≤ rcnt ∧ rnot = rcnt - rcov) := by
  constructor
  · intro block hb
    simp only [List.mem_cons, List.mem_singleton, List.not_mem_nil, or_false] at hb
    rcases hb with rfl | rfl | rfl
    · refine ⟨toInt64 S.LineCoverage.count, toInt64 S.LineCoverage.covered,
        ?_, ?_, ?_⟩
      · simp [summaryInt, renderSummary, getKey]
      · simp [summaryInt, renderSummary, getKey]
      · rw [toInt64_eq_of_lt hlb, toInt64_eq_of_lt (lt_of_le_of_lt hl hlb)]
        exact_mod_cast hl
    · refine ⟨toInt64 S.FunctionCoverage.count, toInt64 S.FunctionCoverage.covered,
        ?_, ?_, ?_⟩
      · simp [summaryInt, renderSummary, getKey]
      · simp [summaryInt, renderSummary, getKey]
      · rw [toInt64_eq_of_lt hfb, toInt64_eq_of_lt (lt_of_le_of_lt hf hfb)]
        exact_mod_cast hf
    · refine ⟨toInt64 S.InstantiationCoverage.count,
        toInt64 S.InstantiationCoverage.covered, ?_, ?_, ?_⟩
      · simp [summaryInt, renderSummary, getKey]
      · simp [summaryInt, renderSummary, getKey]
      · rw [toInt64_eq_of_lt hib, toInt64_eq_of_lt (lt_of_le_of_lt hi hib)]
        exact_mod_cast hi
  · refine ⟨toInt64 S.RegionCoverage.count, toInt64 S.RegionCoverage.covered,
      toInt64 (subUInt64 S.RegionCoverage.count S.RegionCoverage.covered),
      ?_, ?_, ?_, ?_, ?_⟩
    · simp [summaryInt, renderSummary, getKey]
    · simp [summaryInt, renderSummary, getKey]
    · simp [summaryInt, renderSummary, getKey]
    · rw [toInt64_eq_of_lt hrb, toInt64_eq_of_lt (lt_of_le_of_lt hr hrb)]
      exact_mod_cast hr
    · rw [subUInt64_eq_of_le hr (by omega), toInt64_eq_of_lt (by omega),
          toInt64_eq_of_lt hrb, toInt64_eq_of_lt (lt_of_le_of_lt hr hrb)]
      omega

theorem C1_files_strictly_sorted_witness :
    (["b.c", "a.c"] : List String).Nodup ∧
    (prepareZero ["b.c", "a.c"]).1.length = (["b.c", "a.c"] : List String).length ∧
    List.Perm [1, 0] (List.range (["b.c", "a.c"] : List String).length) ∧
    ∃ Files : List JValue,
      filesOf (renderRoot emptyMapping prepareZero ["b.c", "a.c"]
        optsOneThread [1, 0]) = some Files ∧
      List.Pairwise fileLt Files :=
  ⟨by decide, by decide, by decide,
   C1_files_strictly_sorted emptyMapping prepareZero ["b.c", "a.c"]
     optsOneThread [1, 0] (by decide) (by decide) (by decide)⟩

theorem C2_completion_order_irrelevant_witness :
    ([zeroSummary "b.c", zeroSummary "a.c"].length
      = (["b.c", "a.c"] : List String).length) ∧
    List.Perm [1, 0] (List.range (["b.c", "a.c"] : List String).length) ∧
    (["b.c", "a.c"] : List String).Nodup ∧
    ((renderFilesWithOrder emptyMapping ["b.c", "a.c"]
        [zeroSummary "b.c", zeroSummary "a.c"] optsOneThread [1, 0]).length
      = (["b.c", "a.c"] : List String).length ∧
     List.Perm
       (renderFilesWithOrder emptyMapping ["b.c", "a.c"]
         [zeroSummary "b.c", zeroSummary "a.c"] optsOneThread [1, 0])
       (renderFilesSeq emptyMapping ["b.c", "a.c"]
         [zeroSummary "b.c", zeroSummary "a.c"] optsOneThread) ∧
     sortFiles (renderFilesWithOrder emptyMapping ["b.c", "a.c"]
         [zeroSummary "b.c", zeroSummary "a.c"] optsOneThread [1, 0])
       = sortFiles (renderFilesSeq emptyMapping ["b.c", "a.c"]
         [zeroSummary "b.c", zeroSummary "a.c"] optsOneThread)) :=
  ⟨by decide, by decide, by decide,
   C2_completion_order_irrelevant emptyMapping ["b.c", "a.c"]
     [zeroSummary "b.c", zeroSummary "a.c"] optsOneThread [1, 0]
     (by decide) (by decide) (by decide)⟩

theorem C6_segments_verbatim_witness :
    optsOneThread.ExportSummaryOnly = false ∧
    (getKey (renderFile oneSegMapping "a.c" (zeroSummary "a.c") optsOneThread)
        "segments" =
      some (JValue.arr ((oneSegMapping.CoverageForFile "a.c").Segments.map
        (fun s => JValue.arr (renderSegment s)))) ∧
     ((oneSegMapping.CoverageForFile "a.c").Segments.map
       (fun s => JValue.arr (renderSegment s))).length
        = (oneSegMapping.CoverageForFile "a.c").Segments.length ∧
     ∀ s : CoverageSegment,
       renderSegment s =
         [JValue.int (Int.ofNat s.Line), JValue.int (Int.ofNat s.Col),
          JValue.int (toInt64 s.Count), JValue.bool s.HasCount,
          JValue.bool s.IsRegionEntry] ∧
       (renderSegment s).length = 5) :=
  ⟨rfl, C6_segments_verbatim oneSegMapping "a.c" (zeroSummary "a.c")
    optsOneThread rfl⟩

theorem C7_summary_invariants_witness :
    (sampleSummary.LineCoverage.covered ≤ sampleSummary.LineCoverage.count ∧
     sampleSummary.FunctionCoverage.covered ≤ sampleSummary.FunctionCoverage.count ∧
     sampleSummary.InstantiationCoverage.covered
       ≤ sampleSummary.InstantiationCoverage.count ∧
     sampleSummary.RegionCoverage.covered ≤ sampleSummary.RegionCoverage.count ∧
     sampleSummary.LineCoverage.count < 2 ^ 63 ∧
     sampleSummary.FunctionCoverage.count < 2 ^ 63 ∧
     sampleSummary.InstantiationCoverage.count < 2 ^ 63 ∧
     sampleSummary.RegionCoverage.count < 2 ^ 63) ∧
    ((∀ block ∈ (["lines", "functions", "instantiations"] : List String),
       ∃ cnt cov : Int,
         summaryInt (renderSummary sampleSummary) block "count" = some cnt ∧
         summaryInt (renderSummary sampleSummary) block "covered" = some cov ∧
         cov ≤ cnt) ∧
     (∃ rcnt rcov rnot : Int,
       summaryInt (renderSummary sampleSummary) "regions" "count" = some rcnt ∧
       summaryInt (renderSummary sampleSummary) "regions" "covered" = some rcov ∧
       summaryInt (renderSummary sampleSummary) "regions" "notcovered" = some rnot ∧
       rcov ≤ rcnt ∧ rnot = rcnt - rcov)) :=
  ⟨⟨by decide, by decide, by decide, by decide,
    by decide, by decide, by decide, by decide⟩,
   C7_summary_invariants sampleSummary (by decide) (by decide) (by decide)
     (by decide) (by decide) (by decide) (by decide) (by decide)⟩

theorem C8_worker_count_witness :
    renderFilesNumThreads
      { ExportSummaryOnly := false, SkipExpansions := false,
        SkipFunctions := false, NumThreads := 4 } 8 2 = 4 ∧
    renderFilesNumThreads
      { ExportSummaryOnly := false, SkipExpansions := false,
        SkipFunctions := false, NumThreads := 0 } 8 2 = 2 :=
  ⟨(C8_worker_count
      { ExportSummaryOnly := false, SkipExpansions := false,
        SkipFunctions := false, NumThreads := 4 } 8 2).1 (by decide),
   by
     have h := (C8_worker_count
       { ExportSummaryOnly := false, SkipExpansions := false,
         SkipFunctions := false, NumThreads := 0 } 8 2).2 rfl
     simpa using h⟩

theorem C9_sort_inputs_safe_witness :
    ∃ (ob : List (String × JValue)) (fn : String),
      JValue.obj (renderFile oneSegMapping "a.c" (zeroSummary "a.c") optsOneThread)
        = JValue.obj ob ∧ getString ob "filename" = some fn :=
  C9_sort_inputs_safe oneSegMapping ["a.c"] [zeroSummary "a.c"] optsOneThread [0]
    (JValue.obj (renderFile oneSegMapping "a.c" (zeroSummary "a.c") optsOneThread))
    (List.mem_singleton_self _)

theorem C10_empty_file_list_witness :
    ({ ExportSummaryOnly := false, SkipExpansions := false, SkipFunctions := false,
       NumThreads := 0 } : CoverageViewOptions).NumThreads = 0 ∧
    (renderFilesNumThreads
       { ExportSummaryOnly := false, SkipExpansions := false,
         SkipFunctions := false, NumThreads := 0 } 8 0 = 1 ∧
     renderFilesSeq emptyMapping [] (prepareZero []).1
       { ExportSummaryOnly := false, SkipExpansions := false,
         SkipFunctions := false, NumThreads := 0 } = [] ∧
     renderFilesWithOrder emptyMapping [] (prepareZero []).1
       { ExportSummaryOnly := false, SkipExpansions := false,
         SkipFunctions := false, NumThreads := 0 } [] = [] ∧
     filesOf (renderRoot emptyMapping prepareZero []
       { ExportSummaryOnly := false, SkipExpansions := false,
         SkipFunctions := false, NumThreads := 0 } []) = some [] ∧
     ∃ Export : List (String × JValue),
       renderRoot emptyMapping prepareZero []
         { ExportSummaryOnly := false, SkipExpansions := false,
           SkipFunctions := false, NumThreads := 0 } [] =
         JValue.obj
           [("version", JValue.str LLVM_COVERAGE_EXPORT_JSON_STR),
            ("type", JValue.str LLVM_COVERAGE_EXPORT_JSON_TYPE_STR),
            ("data", JValue.arr [JValue.obj Export])] ∧
       getKey Export "totals"
         = some (JValue.obj (renderSummary (prepareZero []).2))) :=
  ⟨rfl, C10_empty_file_list emptyMapping prepareZero
    { ExportSummaryOnly := false, SkipExpansions := false,
      SkipFunctions := false, NumThreads := 0 } [] 8 rfl⟩
